import Mathlib

/-!
Verification of the fan-out/fan-in worker-pool pipeline of
mdemidenko/monitoring-platform (internal/notifier/service.go, with the REST
entry in internal/api/handler.go).

The pipeline is embedded as a small-step interleaving transition system: the
job source (sendNotificationsWithIntervals), the worker pool
(notificationWorker), the lifecycle coordinator (the goroutine running
wg.Wait; close(results); done <- true) and the result collector
(processResults) are all modelled by transition rules over one explicit state,
and a run is any finite sequence of rule applications from the initial state.
Every Go select between a cancellation branch and a data branch becomes a
nondeterministic choice between two rules, so the model covers every
interleaving the Go scheduler can produce.  The caller-supplied processing
work (ProcessEntity without its leading context check, which is modelled
explicitly) is a parameter processFn, as it is an external network
collaborator of the pipeline.
-/

/-- models.Notification (internal/models/message.go): chat identifier and
message text. -/
structure Notification where
  ChatID : String
  Text : String
deriving DecidableEq, Repr

/-- ProcessResult (service.go lines 32-35): the aggregate returned by
ProcessWithIntervals.  Its only fields are the two counters. -/
structure ProcessResult where
  SuccessCount : Nat
  ErrorCount : Nat
deriving DecidableEq, Repr

/-- workerResult (service.go lines 38-41): the per-item outcome a worker puts
on the results channel.  A Go error value becomes Option String, none being
the nil error. -/
structure workerResult where
  Text : String
  Error : Option String
deriving DecidableEq, Repr

/-- One iteration of the counting branch of processResults (service.go lines
190-201): an error outcome increments ErrorCount, any other outcome
increments SuccessCount. -/
def tallyStep (acc : ProcessResult) (r : workerResult) : ProcessResult :=
  if r.Error.isSome then { acc with ErrorCount := acc.ErrorCount + 1 }
  else { acc with SuccessCount := acc.SuccessCount + 1 }

/-- The counting loop of processResults applied to a finite stream of worker
results, starting from the zero tally of lines 176-177. -/
def processResultsTally (rs : List workerResult) : ProcessResult :=
  rs.foldl tallyStep { SuccessCount := 0, ErrorCount := 0 }

/-- Go time.NewTicker from the standard library: its documented behaviour is
to panic unless the period is positive, modelled as none on a non-positive
period.  Periods are integer nanoseconds (time.Duration). -/
def NewTicker (d : Int) : Option Int :=
  if d ≤ 0 then none else some d

/-- The two admission routines present in the source: the ticker-paced
sendNotificationsWithIntervals (lines 86-121) and the back-to-back
sendAllNotifications (lines 124-137). -/
inductive AdmissionRoutine
  | pacedTicker
  | immediateAll
deriving DecidableEq, Repr

/-- The admission behaviour of a ProcessWithIntervals call (lines 58-83):
line 72 unconditionally launches sendNotificationsWithIntervals as the job
source, whose first statement (line 87) is time.NewTicker(interval).  So a
call either panics in the source goroutine before any item is admitted (none,
when the ticker cannot be constructed) or performs paced admission; no
interval value selects sendAllNotifications. -/
def ProcessWithIntervalsAdmission (interval : Int) : Option AdmissionRoutine :=
  match NewTicker interval with
  | none => none
  | some _ => some AdmissionRoutine.pacedTicker

/-- Events the job source performs on the jobs channel. -/
inductive SrcEvent
  | send (n : Notification)
  | close
deriving DecidableEq, Repr

/-- sendAllNotifications (service.go lines 124-137) as the sequence of jobs
channel events it performs, iterating from index i: each iteration is a
non-blocking select that takes the cancellation branch exactly when the
context is already done (oracle cancelledAt), closing the channel and
returning; otherwise the default branch sends the item.  The jobs channel is
pre-sized to the batch length, so the send never blocks.  After the loop the
channel is closed. -/
def sendAllNotificationsEvents (cancelledAt : Nat → Bool) :
    Nat → List Notification → List SrcEvent
  | _, [] => [SrcEvent.close]
  | i, n :: rest =>
      if cancelledAt i then [SrcEvent.close]
      else SrcEvent.send n :: sendAllNotificationsEvents cancelledAt (i + 1) rest

/-- One message of the BatchHandler request body (handler.go): chat_id is
optional, text is required with minimum length 1. -/
structure BatchRequestMessage where
  ChatID : String
  Text : String
deriving DecidableEq, Repr

/-- The request body bound by BatchHandler: messages
(binding required,min=1,dive), interval_ms (binding omitempty,min=0) and
workers (binding omitempty,min=1,max=10). -/
structure BatchRequest where
  Messages : List BatchRequestMessage
  IntervalMs : Int
  Workers : Int
deriving DecidableEq, Repr

/-- The gin ShouldBindJSON validation of the BatchHandler request: omitempty
makes the remaining validators of a field apply only when the field does not
hold its zero value, so workers is valid when it is 0 or lies in 1..10, and
interval_ms is valid when it is 0 or non-negative. -/
def bindBatchRequest (r : BatchRequest) : Bool :=
  decide (1 ≤ r.Messages.length) &&
  r.Messages.all (fun m => decide (1 ≤ m.Text.length)) &&
  (r.IntervalMs == 0 || decide (0 ≤ r.IntervalMs)) &&
  (r.Workers == 0 || (decide (1 ≤ r.Workers) && decide (r.Workers ≤ 10)))

/-- BatchHandler parameter preparation: on a binding failure the handler
replies 400 and the pipeline is never started (none); otherwise the effective
interval is 2 seconds unless interval_ms is positive, and the effective worker
count is 2 unless workers is positive, and these are what is passed to
ProcessWithIntervals.  Intervals are in nanoseconds. -/
def BatchHandlerParams (r : BatchRequest) : Option (Int × Int) :=
  if bindBatchRequest r then
    some (if 0 < r.IntervalMs then r.IntervalMs * 1000000 else 2000000000,
          if 0 < r.Workers then r.Workers else 2)
  else none

/-- Program counter of the job source sendNotificationsWithIntervals:
running is the head of the outer select (line 93), trySending is the inner
select holding notifications[sentCount] (line 108), srcDone is after the
function returned (every return is preceded by close(jobs)). -/
inductive SrcPC
  | running
  | trySending
  | srcDone
deriving DecidableEq, Repr

/-- The interleaving state of one ProcessWithIntervals run.  jobs and results
are the channel buffers (both created with capacity equal to the batch
length, which no component can exceed, so buffer-full blocking cannot occur);
idleW, procW and emitW split the live workers by position in the
notificationWorker body: blocked on the outer select, between dequeue and the
ProcessEntity return with the dequeued item, or at the inner select holding a
built workerResult.  wg is the sync.WaitGroup counter, doneFlag records the
done channel signal, and successCount, errorCount, collectorDone belong to
processResults. -/
structure PipeState where
  cancelled : Bool
  srcPC : SrcPC
  sent : Nat
  jobs : List Notification
  jobsClosed : Bool
  idleW : Nat
  procW : List Notification
  emitW : List workerResult
  wg : Nat
  results : List workerResult
  resultsClosed : Bool
  doneFlag : Bool
  successCount : Nat
  errorCount : Nat
  collectorDone : Bool
deriving DecidableEq, Repr

/-- The state in which ProcessWithIntervals has spawned its W workers
(each preceded by wg.Add(1)), the source, the coordinator goroutine and the
collector, and nothing has run yet. -/
def initState (W : Nat) : PipeState :=
  { cancelled := false
    srcPC := SrcPC.running
    sent := 0
    jobs := []
    jobsClosed := false
    idleW := W
    procW := []
    emitW := []
    wg := W
    results := []
    resultsClosed := false
    doneFlag := false
    successCount := 0
    errorCount := 0
    collectorDone := false }

/-- The ProcessResult value processResults returns from a given collector
state (service.go lines 189 and 193). -/
def resultOf (s : PipeState) : ProcessResult :=
  { SuccessCount := s.successCount, ErrorCount := s.errorCount }

/-- One interleaving step of the pipeline.  Each rule is one atomic action of
one component of ProcessWithIntervals; a select whose cancellation branch and
data branch are both ready is modelled by both rules being enabled. -/
inductive Step (items : List Notification) (processFn : Notification → Option String) :
    PipeState → PipeState → Prop
  | cancel (s : PipeState) (h : s.cancelled = false) :
      Step items processFn s { s with cancelled := true }
  | srcCancelClose (s : PipeState) (h : s.cancelled = true)
      (hpc : s.srcPC = SrcPC.running ∨ s.srcPC = SrcPC.trySending) :
      Step items processFn s
        { s with srcPC := SrcPC.srcDone, jobsClosed := true }
  | srcCloseDone (s : PipeState) (hpc : s.srcPC = SrcPC.running)
      (h : items.length ≤ s.sent) :
      Step items processFn s
        { s with srcPC := SrcPC.srcDone, jobsClosed := true }
  | srcTick (s : PipeState) (hpc : s.srcPC = SrcPC.running)
      (h : s.sent < items.length) :
      Step items processFn s { s with srcPC := SrcPC.trySending }
  | srcSend (s : PipeState) (hpc : s.srcPC = SrcPC.trySending)
      (h : s.sent < items.length) :
      Step items processFn s
        { s with srcPC := SrcPC.running, sent := s.sent + 1,
                 jobs := s.jobs ++ [items.get ⟨s.sent, h⟩] }
  | workerCancelExit (s : PipeState) (h : s.cancelled = true) (hw : 0 < s.idleW) :
      Step items processFn s { s with idleW := s.idleW - 1, wg := s.wg - 1 }
  | workerClosedExit (s : PipeState) (hw : 0 < s.idleW)
      (hc : s.jobsClosed = true) (he : s.jobs = []) :
      Step items processFn s { s with idleW := s.idleW - 1, wg := s.wg - 1 }
  | workerDequeue (s : PipeState) (j : Notification) (rest : List Notification)
      (hw : 0 < s.idleW) (hj : s.jobs = j :: rest) :
      Step items processFn s
        { s with idleW := s.idleW - 1, jobs := rest, procW := s.procW ++ [j] }
  | workerProcess (s : PipeState) (i : Nat) (hi : i < s.procW.length) :
      Step items processFn s
        { s with procW := s.procW.eraseIdx i,
                 emitW := s.emitW ++
                   [{ Text := (s.procW.get ⟨i, hi⟩).Text,
                      Error := if s.cancelled then some "operation cancelled"
                               else processFn (s.procW.get ⟨i, hi⟩) }] }
  | workerEmit (s : PipeState) (i : Nat) (hi : i < s.emitW.length) :
      Step items processFn s
        { s with emitW := s.emitW.eraseIdx i, idleW := s.idleW + 1,
                 results := s.results ++ [s.emitW.get ⟨i, hi⟩] }
  | workerCancelDropEmit (s : PipeState) (i : Nat) (hi : i < s.emitW.length)
      (h : s.cancelled = true) :
      Step items processFn s
        { s with emitW := s.emitW.eraseIdx i, wg := s.wg - 1 }
  | closeResults (s : PipeState) (h : s.wg = 0) (hc : s.resultsClosed = false) :
      Step items processFn s { s with resultsClosed := true }
  | signalDone (s : PipeState) (h : s.resultsClosed = true)
      (hd : s.doneFlag = false) :
      Step items processFn s { s with doneFlag := true }
  | collectorCount (s : PipeState) (r : workerResult) (rest : List workerResult)
      (hr : s.results = r :: rest) (hc : s.collectorDone = false) :
      Step items processFn s
        { s with results := rest,
                 successCount := if r.Error.isSome then s.successCount
                                 else s.successCount + 1,
                 errorCount := if r.Error.isSome then s.errorCount + 1
                               else s.errorCount }
  | collectorFinishClosed (s : PipeState) (hr : s.results = [])
      (hc : s.resultsClosed = true) (hd : s.doneFlag = true)
      (hcd : s.collectorDone = false) :
      Step items processFn s { s with collectorDone := true }
  | collectorFinishCancel (s : PipeState) (h : s.cancelled = true)
      (hcd : s.collectorDone = false) :
      Step items processFn s { s with collectorDone := true }

/-- Reachability: the states some interleaving of one ProcessWithIntervals
run with W workers can be in. -/
def Reach (items : List Notification) (processFn : Notification → Option String)
    (W : Nat) (s : PipeState) : Prop :=
  Relation.ReflTransGen (Step items processFn) (initState W) s

/-- Number of error outcomes in a list of worker results. -/
def errCount (rs : List workerResult) : Nat :=
  rs.countP (fun r => r.Error.isSome)

/-- Number of items on which the processing function fails. -/
def failCount (processFn : Notification → Option String)
    (l : List Notification) : Nat :=
  l.countP (fun a => (processFn a).isSome)

/-- Concrete batch items used to evaluate the theorems on closed runs. -/
def nA : Notification := { ChatID := "chat", Text := "m1" }

/-- Second concrete item. -/
def nB : Notification := { ChatID := "chat", Text := "m2" }

/-- Third concrete item. -/
def nC : Notification := { ChatID := "chat", Text := "m3" }

/-- Fourth concrete item. -/
def nD : Notification := { ChatID := "chat", Text := "m4" }

/-- The four-item batch of the concrete scenario of the specification. -/
def items4 : List Notification := [nA, nB, nC, nD]

/-- A processing function that always succeeds. -/
def fnOk : Notification → Option String := fun _ => none

/-- A processing function failing exactly on the second and fourth item of
items4. -/
def fnFail24 : Notification → Option String := fun n =>
  if n.Text == "m2" || n.Text == "m4" then some "telegram API error" else none

/-- Final state of a completed run over the empty batch with one worker. -/
def emptyRunFinal : PipeState :=
  { cancelled := false, srcPC := SrcPC.srcDone, sent := 0, jobs := [],
    jobsClosed := true, idleW := 0, procW := [], emitW := [], wg := 0,
    results := [], resultsClosed := true, doneFlag := true, successCount := 0,
    errorCount := 0, collectorDone := true }

/-- Final state of a run over a two-item batch with one worker that is
cancelled before anything is admitted. -/
def cancelRunFinal : PipeState :=
  { cancelled := true, srcPC := SrcPC.srcDone, sent := 0, jobs := [],
    jobsClosed := true, idleW := 0, procW := [], emitW := [], wg := 0,
    results := [], resultsClosed := true, doneFlag := true, successCount := 0,
    errorCount := 0, collectorDone := true }

/-- Final state of the completed four-item, two-worker run with fnFail24. -/
def run4Final : PipeState :=
  { cancelled := false, srcPC := SrcPC.srcDone, sent := 4, jobs := [],
    jobsClosed := true, idleW := 0, procW := [], emitW := [], wg := 0,
    results := [], resultsClosed := true, doneFlag := true, successCount := 2,
    errorCount := 2, collectorDone := true }

/-- Final state of a run over a one-item batch started with zero workers: the
pipeline still admits the item, closes everything and returns a zero tally
without any error. -/
def zeroWorkersFinal : PipeState :=
  { cancelled := false, srcPC := SrcPC.srcDone, sent := 1, jobs := [nA],
    jobsClosed := true, idleW := 0, procW := [], emitW := [], wg := 0,
    results := [], resultsClosed := true, doneFlag := true, successCount := 0,
    errorCount := 0, collectorDone := true }

/-- Counting with a predicate commutes with removing one index. -/
lemma countP_eraseIdx_add {α : Type} (p : α → Bool) :
    ∀ (l : List α) (i : Nat) (h : i < l.length),
      (l.eraseIdx i).countP p + (if p (l.get ⟨i, h⟩) then 1 else 0) = l.countP p := by
  intro l
  induction l with
  | nil => intro i h; simp at h
  | cons a t ih =>
    intro i h
    cases i with
    | zero => simp [List.countP_cons, Nat.add_comm]
    | succ n =>
      have hn : n < t.length := by simpa using h
      have ht := ih n hn
      simp only [List.eraseIdx, List.countP_cons, List.get]
      omega

/-- The inductive invariant of the pipeline model: the wait-group counter
tracks the live workers, items are conserved between the queues, the worker
positions and the tally, the source closes the jobs channel exactly at its
terminal program counter, an uncancelled close means full admission, an
uncancelled worker exit means the jobs channel was closed and drained, error
outcomes are conserved in uncancelled runs, a closed results channel means
every worker already exited, and an uncancelled collector return means the
results channel was closed and drained. -/
structure PipeInv (items : List Notification) (processFn : Notification → Option String)
    (W : Nat) (s : PipeState) : Prop where
  wg_eq : s.wg = s.idleW + s.procW.length + s.emitW.length
  sent_le : s.sent ≤ items.length
  conserve_le : s.successCount + s.errorCount + s.results.length + s.emitW.length
      + s.procW.length + s.jobs.length ≤ s.sent
  conserve_eq : s.cancelled = false →
      s.successCount + s.errorCount + s.results.length + s.emitW.length
        + s.procW.length + s.jobs.length = s.sent
  closed_iff : s.jobsClosed = true ↔ s.srcPC = SrcPC.srcDone
  closed_sent : s.cancelled = false → s.jobsClosed = true → s.sent = items.length
  exit_closed : s.cancelled = false →
      s.wg = W ∨ (s.jobsClosed = true ∧ s.jobs = [])
  err_conserve : s.cancelled = false →
      s.errorCount + errCount s.results + errCount s.emitW
        + failCount processFn s.procW + failCount processFn s.jobs
        + failCount processFn (items.drop s.sent)
        = failCount processFn items
  results_quiescent : s.resultsClosed = true →
      s.wg = 0 ∧ s.idleW = 0 ∧ s.procW = [] ∧ s.emitW = []
  done_closed : s.cancelled = false → s.collectorDone = true →
      s.results = [] ∧ s.resultsClosed = true

/-- The initial state satisfies the invariant. -/
lemma inv_init (items : List Notification) (processFn : Notification → Option String)
    (W : Nat) : PipeInv items processFn W (initState W) := by
  constructor <;> simp [initState, errCount, failCount]

/-- Every pipeline step preserves the invariant. -/
lemma inv_step {items : List Notification} {processFn : Notification → Option String}
    {W : Nat} {s s' : PipeState} (h : PipeInv items processFn W s)
    (hs : Step items processFn s s') : PipeInv items processFn W s' := by
  obtain ⟨hwg, hsl, hcl, hce, hci, hcs, hec, herr, hrq, hdc⟩ := h
  cases hs with
  | cancel h =>
      exact ⟨hwg, hsl, hcl, by intro hx; simp at hx, hci, by intro hx; simp at hx,
        by intro hx; simp at hx, by intro hx; simp at hx, hrq, by intro hx; simp at hx⟩
  | srcCancelClose h hpc =>
      exact ⟨hwg, hsl, hcl, by intro hx; simp [h] at hx, by simp,
        by intro hx; simp [h] at hx, by intro hx; simp [h] at hx,
        by intro hx; simp [h] at hx, hrq, by intro hx; simp [h] at hx⟩
  | srcCloseDone hpc hge =>
      refine ⟨hwg, hsl, hcl, hce, by simp, ?_, ?_, herr, hrq, hdc⟩
      · intro _ _
        dsimp only
        omega
      · intro hx
        rcases hec hx with h1 | h2
        · exact Or.inl h1
        · exact Or.inr ⟨rfl, h2.2⟩
  | srcTick hpc hlt =>
      have hjc : s.jobsClosed = false := by
        rcases hb : s.jobsClosed with _ | _
        · rfl
        · exact absurd (hci.mp hb) (by simp [hpc])
      refine ⟨hwg, hsl, hcl, hce, by simp [hjc], ?_, hec, herr, hrq, hdc⟩
      intro hx hj
      exact hcs hx hj
  | srcSend hpc hlt =>
      have hjc : s.jobsClosed = false := by
        rcases hb : s.jobsClosed with _ | _
        · rfl
        · exact absurd (hci.mp hb) (by simp [hpc])
      refine ⟨hwg, ?_, ?_, ?_, by simp [hjc], ?_, ?_, ?_, hrq, hdc⟩
      · dsimp only; omega
      · dsimp only
        try simp only [List.length_append, List.length_cons, List.length_nil]
        omega
      · intro hx
        have h0 := hce hx
        dsimp only
        try simp only [List.length_append, List.length_cons, List.length_nil]
        omega
      · intro hx hj
        simp only at hj
        simp [hjc] at hj
      · intro hx
        rcases hec hx with h1 | h2
        · exact Or.inl h1
        · simp [hjc] at h2
      · intro hx
        have h8 := herr hx
        have hd := List.drop_eq_getElem_cons hlt
        dsimp only
        rw [hd] at h8
        cases hp : (processFn (items.get ⟨s.sent, hlt⟩)).isSome
        all_goals
          simp only [failCount, List.countP_append, List.countP_cons,
            List.get_eq_getElem, hp] at h8 ⊢
          simp at h8 ⊢
          omega
  | workerCancelExit h hw =>
      refine ⟨?_, hsl, hcl, by intro hx; simp [h] at hx, hci,
        by intro hx; simp [h] at hx, by intro hx; simp [h] at hx,
        by intro hx; simp [h] at hx, ?_, by intro hx; simp [h] at hx⟩
      · dsimp only; omega
      · intro hx
        have := (hrq hx).2.1
        omega
  | workerClosedExit hw hc he =>
      refine ⟨?_, hsl, hcl, hce, hci, hcs, ?_, herr, ?_, hdc⟩
      · dsimp only; omega
      · intro _
        exact Or.inr ⟨hc, he⟩
      · intro hx
        have := (hrq hx).2.1
        omega
  | workerDequeue j rest hw hj =>
      have hlen : s.jobs.length = rest.length + 1 := by simp [hj]
      refine ⟨?_, hsl, ?_, ?_, hci, hcs, ?_, ?_, ?_, hdc⟩
      · dsimp only
        try simp only [List.length_append, List.length_cons, List.length_nil]
        omega
      · dsimp only
        try simp only [List.length_append, List.length_cons, List.length_nil]
        omega
      · intro hx
        have h0 := hce hx
        dsimp only
        try simp only [List.length_append, List.length_cons, List.length_nil]
        omega
      · intro hx
        rcases hec hx with h1 | h2
        · exact Or.inl h1
        · rw [h2.2] at hj; simp at hj
      · intro hx
        have h8 := herr hx
        rw [hj] at h8
        dsimp only
        cases hp : (processFn j).isSome
        all_goals
          simp only [failCount, List.countP_append, List.countP_cons, hp] at h8 ⊢
          simp at h8 ⊢
          omega
      · intro hx
        have := (hrq hx).2.1
        omega
  | workerProcess i hi =>
      have hL := List.length_eraseIdx_add_one hi
      refine ⟨?_, hsl, ?_, ?_, hci, hcs, hec, ?_, ?_, hdc⟩
      · dsimp only
        try simp only [List.length_append, List.length_cons, List.length_nil]
        omega
      · dsimp only
        try simp only [List.length_append, List.length_cons, List.length_nil]
        omega
      · intro hx
        have h0 := hce hx
        dsimp only
        try simp only [List.length_append, List.length_cons, List.length_nil]
        omega
      · intro hx
        have h9 : s.cancelled = false := hx
        have h8 := herr h9
        have hC := countP_eraseIdx_add (fun a => (processFn a).isSome) s.procW i hi
        dsimp only
        rw [h9]
        cases hp : (processFn (s.procW.get ⟨i, hi⟩)).isSome
        all_goals
          simp [errCount, failCount, List.countP_append, List.countP_cons, hp] at h8 hC ⊢
        all_goals omega
      · intro hx
        have := (hrq hx).2.2.1
        rw [this] at hi
        simp at hi
  | workerEmit i hi =>
      have hL := List.length_eraseIdx_add_one hi
      refine ⟨?_, hsl, ?_, ?_, hci, hcs, hec, ?_, ?_, ?_⟩
      · dsimp only
        try simp only [List.length_append, List.length_cons, List.length_nil]
        omega
      · dsimp only
        try simp only [List.length_append, List.length_cons, List.length_nil]
        omega
      · intro hx
        have h0 := hce hx
        dsimp only
        try simp only [List.length_append, List.length_cons, List.length_nil]
        omega
      · intro hx
        have h9 : s.cancelled = false := hx
        have h8 := herr h9
        have hC := countP_eraseIdx_add (fun r => r.Error.isSome) s.emitW i hi
        dsimp only
        cases hp : (s.emitW.get ⟨i, hi⟩).Error.isSome
        all_goals
          simp [errCount, failCount, List.countP_append, List.countP_cons, hp] at h8 hC ⊢
        all_goals omega
      · intro hx
        have := (hrq hx).2.2.2
        rw [this] at hi
        simp at hi
      · intro hx hcd
        have h9 : s.cancelled = false := hx
        have hd0 := hdc h9 hcd
        have := (hrq hd0.2).2.2.2
        rw [this] at hi
        simp at hi
  | workerCancelDropEmit i hi h =>
      have hL := List.length_eraseIdx_add_one hi
      refine ⟨?_, hsl, ?_, by intro hx; simp [h] at hx, hci,
        by intro hx; simp [h] at hx, by intro hx; simp [h] at hx,
        by intro hx; simp [h] at hx, ?_, by intro hx; simp [h] at hx⟩
      · dsimp only; omega
      · dsimp only; omega
      · intro hx
        have := (hrq hx).2.2.2
        rw [this] at hi
        simp at hi
  | closeResults h hc =>
      refine ⟨hwg, hsl, hcl, hce, hci, hcs, hec, herr, ?_, ?_⟩
      · intro _
        have h1 : s.idleW = 0 := by omega
        have h2 : s.procW.length = 0 := by omega
        have h3 : s.emitW.length = 0 := by omega
        exact ⟨h, h1, List.length_eq_zero.mp h2, List.length_eq_zero.mp h3⟩
      · intro hx hcd
        exact ⟨(hdc hx hcd).1, rfl⟩
  | signalDone h hd =>
      exact ⟨hwg, hsl, hcl, hce, hci, hcs, hec, herr, hrq, hdc⟩
  | collectorCount r rest hr hc =>
      have hlen : s.results.length = rest.length + 1 := by simp [hr]
      refine ⟨hwg, hsl, ?_, ?_, hci, hcs, hec, ?_, hrq, ?_⟩
      · dsimp only
        cases hp : r.Error.isSome
        all_goals simp only [hp, Bool.false_eq_true, if_false, if_true]; omega
      · intro hx
        have h0 := hce hx
        dsimp only
        cases hp : r.Error.isSome
        all_goals simp only [hp, Bool.false_eq_true, if_false, if_true]; omega
      · intro hx
        have h9 : s.cancelled = false := hx
        have h8 := herr h9
        rw [hr] at h8
        dsimp only
        cases hp : r.Error.isSome
        all_goals simp [errCount, List.countP_cons, hp] at h8 ⊢
        all_goals omega
      · intro hx hcd
        simp only at hcd
        rw [hc] at hcd
        simp at hcd
  | collectorFinishClosed hr hc hd hcd =>
      refine ⟨hwg, hsl, hcl, hce, hci, hcs, hec, herr, hrq, ?_⟩
      intro _ _
      exact ⟨hr, hc⟩
  | collectorFinishCancel h hcd =>
      exact ⟨hwg, hsl, hcl, by intro hx; simp [h] at hx, hci,
        by intro hx; simp [h] at hx, by intro hx; simp [h] at hx,
        by intro hx; simp [h] at hx, hrq, by intro hx; simp [h] at hx⟩

/-- Every reachable state satisfies the invariant. -/
lemma inv_reach {items : List Notification} {processFn : Notification → Option String}
    {W : Nat} {s : PipeState} (h : Reach items processFn W s) :
    PipeInv items processFn W s := by
  induction h with
  | refl => exact inv_init items processFn W
  | tail _ hstep ih => exact inv_step ih hstep

/-- In an uncancelled run whose collector has returned, with at least one
worker, everything was drained: all items were admitted, all queues and
worker positions are empty, and the tally covers exactly the batch. -/
lemma final_uncancelled {items : List Notification}
    {processFn : Notification → Option String} {W : Nat} {s : PipeState}
    (hW : 1 ≤ W) (hr : Reach items processFn W s) (hnc : s.cancelled = false)
    (hdone : s.collectorDone = true) :
    s.sent = items.length ∧ s.jobs = [] ∧ s.procW = [] ∧ s.emitW = [] ∧
    s.results = [] ∧ s.successCount + s.errorCount = items.length ∧
    s.errorCount = failCount processFn items := by
  obtain ⟨hwg, hsl, hcl, hce, hci, hcs, hec, herr, hrq, hdc⟩ := inv_reach hr
  obtain ⟨hre, hrc⟩ := hdc hnc hdone
  obtain ⟨hw0, hi0, hp0, he0⟩ := hrq hrc
  rcases hec hnc with h1 | h2
  · omega
  · have hsent := hcs hnc h2.1
    have hceq := hce hnc
    have herr0 := herr hnc
    rw [hre, hp0, he0, h2.2] at hceq
    rw [hre, hp0, he0, h2.2, hsent, List.drop_length] at herr0
    simp [errCount, failCount] at hceq herr0 ⊢
    refine ⟨hsent, h2.2, hp0, he0, hre, ?_, ?_⟩ <;> omega

/-- C1: in every interleaving of a batch of n work items processed by the
pipeline with workerCount at least 1 in which cancellation never fires, the
returned aggregate satisfies successCount plus errorCount equal to n, which
is also the number of items admitted to the intake queue. -/
theorem completed_run_counts_all (items : List Notification)
    (processFn : Notification → Option String) (W : Nat) (s : PipeState)
    (hW : 1 ≤ W) (hr : Reach items processFn W s) (hnc : s.cancelled = false)
    (hdone : s.collectorDone = true) :
    s.successCount + s.errorCount = items.length ∧ s.sent = items.length := by
  obtain ⟨h1, _, _, _, _, h6, _⟩ := final_uncancelled hW hr hnc hdone
  exact ⟨h6, h1⟩

/-- C5: in every uncancelled run, an error returned by the processing
function for one item is captured as the outcome of that item and counted in
errorCount, and never aborts the other items or the batch: the final error
count equals the number of items the processing function fails on, and the
rest of the batch is counted as successes. -/
theorem processFn_errors_captured (items : List Notification)
    (processFn : Notification → Option String) (W : Nat) (s : PipeState)
    (hW : 1 ≤ W) (hr : Reach items processFn W s) (hnc : s.cancelled = false)
    (hdone : s.collectorDone = true) :
    s.errorCount = failCount processFn items ∧
    s.successCount + failCount processFn items = items.length := by
  obtain ⟨_, _, _, _, _, h6, h7⟩ := final_uncancelled hW hr hnc hdone
  exact ⟨h7, by omega⟩

/-- C7: the results channel is closed only once the wait-group counter is
zero, which in every reachable state means every one of the spawned workers
has exited: no worker is idle, processing, or holding a pending outcome when
the collector can observe the channel closed. -/
theorem results_closed_only_after_workers_exit (items : List Notification)
    (processFn : Notification → Option String) (W : Nat) (s : PipeState)
    (hr : Reach items processFn W s) (h : s.resultsClosed = true) :
    s.wg = 0 ∧ s.idleW = 0 ∧ s.procW = [] ∧ s.emitW = [] :=
  (inv_reach hr).results_quiescent h

/-- C8: if a run is cancelled and k items in total were admitted to the
intake queue, the tally never exceeds k: outcomes only exist for admitted
items, at most one per item, and none is counted twice. -/
theorem cancelled_tally_bounded (items : List Notification)
    (processFn : Notification → Option String) (W : Nat) (k : Nat) (s : PipeState)
    (hr : Reach items processFn W s) (hc : s.cancelled = true) (hk : s.sent = k) :
    s.successCount + s.errorCount ≤ k := by
  have h := (inv_reach hr).conserve_le
  omega

/-- C6: once the job source has closed the jobs channel it is terminal: no
further admission happens and the channel stays closed; any step that closes
the channel is a source exit step, moving the source from a live program
counter to its terminal one, and every source exit leaves the channel
closed.  Together with the previous clause the close happens exactly once. -/
theorem jobSource_closes_once (items : List Notification)
    (processFn : Notification → Option String) (W : Nat) (s s' : PipeState)
    (hr : Reach items processFn W s) (hs : Step items processFn s s') :
    (s.jobsClosed = true →
      s'.sent = s.sent ∧ s'.jobsClosed = true ∧ s'.srcPC = s.srcPC) ∧
    (s.jobsClosed = false → s'.jobsClosed = true →
      s.srcPC ≠ SrcPC.srcDone ∧ s'.srcPC = SrcPC.srcDone) ∧
    (s'.srcPC = SrcPC.srcDone → s'.jobsClosed = true) := by
  have hci := (inv_reach hr).closed_iff
  cases hs <;> refine ⟨?_, ?_, ?_⟩ <;> intros <;> simp_all

/-- The foldl of the processResults counting loop in closed form. -/
lemma foldl_tallyStep (rs : List workerResult) (acc : ProcessResult) :
    rs.foldl tallyStep acc =
      { SuccessCount := acc.SuccessCount + rs.countP (fun r => r.Error.isNone),
        ErrorCount := acc.ErrorCount + errCount rs } := by
  induction rs generalizing acc with
  | nil => simp [errCount]
  | cons r t ih =>
    cases hE : r.Error <;>
      simp [tallyStep, hE, List.countP_cons, errCount, ih, ProcessResult.mk.injEq] <;>
      omega

/-- C9: the final counts are independent of the order in which outcomes
arrive at the result collector: any permutation of the outcome stream yields
the same tally. -/
theorem tally_order_independent (rs rs' : List workerResult)
    (h : rs.Perm rs') : processResultsTally rs = processResultsTally rs' := by
  simp [processResultsTally, foldl_tallyStep, errCount,
    h.countP_eq (fun r => r.Error.isNone), h.countP_eq (fun r => r.Error.isSome)]

/-- A completed interleaving of the empty batch with one worker. -/
lemma reach_emptyRun : Reach [] fnOk 1 emptyRunFinal := by
  have h0 : Reach [] fnOk 1 (initState 1) := Relation.ReflTransGen.refl
  have h1 := h0.tail (Step.srcCloseDone (initState 1) rfl (by decide))
  have h2 := h1.tail (Step.workerClosedExit _ (by decide) rfl rfl)
  have h3 := h2.tail (Step.closeResults _ rfl rfl)
  have h4 := h3.tail (Step.signalDone _ rfl rfl)
  have h5 := h4.tail (Step.collectorFinishClosed _ rfl rfl rfl rfl)
  exact h5

/-- An interleaving of a two-item batch with one worker, cancelled before any
admission, running to collector return. -/
lemma reach_cancelRun : Reach [nA, nB] fnOk 1 cancelRunFinal := by
  have h0 : Reach [nA, nB] fnOk 1 (initState 1) := Relation.ReflTransGen.refl
  have h1 := h0.tail (Step.cancel _ rfl)
  have h2 := h1.tail (Step.srcCancelClose _ rfl (Or.inl rfl))
  have h3 := h2.tail (Step.workerCancelExit _ rfl (by decide))
  have h4 := h3.tail (Step.closeResults _ rfl rfl)
  have h5 := h4.tail (Step.signalDone _ rfl rfl)
  have h6 := h5.tail (Step.collectorFinishCancel _ rfl rfl)
  exact h6

/-- An interleaving of a one-item batch started with zero workers: the
pipeline admits the item and returns a zero tally with no error raised. -/
lemma reach_zeroWorkers : Reach [nA] fnOk 0 zeroWorkersFinal := by
  have h0 : Reach [nA] fnOk 0 (initState 0) := Relation.ReflTransGen.refl
  have h1 := h0.tail (Step.srcTick _ rfl (by decide))
  have h2 := h1.tail (Step.srcSend _ rfl (by decide))
  have h3 := h2.tail (Step.srcCloseDone _ rfl (by decide))
  have h4 := h3.tail (Step.closeResults _ rfl rfl)
  have h5 := h4.tail (Step.signalDone _ rfl rfl)
  have h6 := h5.tail (Step.collectorFinishClosed _ rfl rfl rfl rfl)
  exact h6

/-- A completed interleaving of the four-item batch with two workers and
fnFail24: all items admitted, processed and counted. -/
lemma reach_run4 : Reach items4 fnFail24 2 run4Final := by
  have h0 : Reach items4 fnFail24 2 (initState 2) := Relation.ReflTransGen.refl
  have h1 := h0.tail (Step.srcTick _ rfl (by decide))
  have h2 := h1.tail (Step.srcSend _ rfl (by decide))
  have h3 := h2.tail (Step.srcTick _ rfl (by decide))
  have h4 := h3.tail (Step.srcSend _ rfl (by decide))
  have h5 := h4.tail (Step.srcTick _ rfl (by decide))
  have h6 := h5.tail (Step.srcSend _ rfl (by decide))
  have h7 := h6.tail (Step.srcTick _ rfl (by decide))
  have h8 := h7.tail (Step.srcSend _ rfl (by decide))
  have h9 := h8.tail (Step.srcCloseDone _ rfl (by decide))
  have h10 := h9.tail (Step.workerDequeue _ _ _ (by decide) rfl)
  have h11 := h10.tail (Step.workerProcess _ 0 (by decide))
  have h12 := h11.tail (Step.workerEmit _ 0 (by decide))
  have h13 := h12.tail (Step.workerDequeue _ _ _ (by decide) rfl)
  have h14 := h13.tail (Step.workerProcess _ 0 (by decide))
  have h15 := h14.tail (Step.workerEmit _ 0 (by decide))
  have h16 := h15.tail (Step.workerDequeue _ _ _ (by decide) rfl)
  have h17 := h16.tail (Step.workerProcess _ 0 (by decide))
  have h18 := h17.tail (Step.workerEmit _ 0 (by decide))
  have h19 := h18.tail (Step.workerDequeue _ _ _ (by decide) rfl)
  have h20 := h19.tail (Step.workerProcess _ 0 (by decide))
  have h21 := h20.tail (Step.workerEmit _ 0 (by decide))
  have h22 := h21.tail (Step.workerClosedExit _ (by decide) rfl rfl)
  have h23 := h22.tail (Step.workerClosedExit _ (by decide) rfl rfl)
  have h24 := h23.tail (Step.closeResults _ rfl rfl)
  have h25 := h24.tail (Step.signalDone _ rfl rfl)
  have h26 := h25.tail (Step.collectorCount _ _ _ rfl rfl)
  have h27 := h26.tail (Step.collectorCount _ _ _ rfl rfl)
  have h28 := h27.tail (Step.collectorCount _ _ _ rfl rfl)
  have h29 := h28.tail (Step.collectorCount _ _ _ rfl rfl)
  have h30 := h29.tail (Step.collectorFinishClosed _ rfl rfl rfl rfl)
  exact h30

/-- C10: every ProcessWithIntervals call, for every interval value, goes
through the paced admission routine; since time.NewTicker requires a strictly
positive period, the operation is not total: it panics before admitting any
item whenever interval is not positive, and no interval value reaches the
immediate routine sendAllNotifications. -/
theorem processWithIntervals_always_paced (interval : Int) :
    (interval ≤ 0 → ProcessWithIntervalsAdmission interval = none) ∧
    (0 < interval →
      ProcessWithIntervalsAdmission interval = some AdmissionRoutine.pacedTicker) ∧
    ProcessWithIntervalsAdmission interval ≠ some AdmissionRoutine.immediateAll := by
  by_cases h0 : interval ≤ 0
  · refine ⟨fun _ => ?_, fun hp => ?_, ?_⟩
    · simp [ProcessWithIntervalsAdmission, NewTicker, h0]
    · omega
    · simp [ProcessWithIntervalsAdmission, NewTicker, h0]
  · refine ⟨fun hle => ?_, fun _ => ?_, ?_⟩
    · omega
    · simp [ProcessWithIntervalsAdmission, NewTicker, h0]
    · simp [ProcessWithIntervalsAdmission, NewTicker, h0]

/-- Witness for processWithIntervals_always_paced at intervals 0 and 1. -/
theorem processWithIntervals_always_paced_witness :
    ProcessWithIntervalsAdmission 0 = none ∧
    ProcessWithIntervalsAdmission 1 = some AdmissionRoutine.pacedTicker :=
  ⟨(processWithIntervals_always_paced 0).1 (by decide),
   (processWithIntervals_always_paced 1).2.1 (by decide)⟩

/-- C3: at interval 0 the pipeline entry point does not perform
immediate-mode admission: the unconditional time.NewTicker construction in
the paced routine panics before any item is admitted, whereas the
(unreachable) immediate routine sendAllNotifications would have admitted the
whole batch back-to-back and closed the queue. -/
theorem interval_zero_no_immediate_admission :
    ProcessWithIntervalsAdmission 0 = none ∧
    ProcessWithIntervalsAdmission 0 ≠ some AdmissionRoutine.immediateAll ∧
    sendAllNotificationsEvents (fun _ => false) 0 [nA] =
      [SrcEvent.send nA, SrcEvent.close] := by
  refine ⟨by decide, by decide, by decide⟩

/-- Counterexample to C2: the value returned by the pipeline carries no
marking of cancellation.  A run over a two-item batch cancelled before any
item was processed and an uncancelled completed run return identical
ProcessResult values. -/
theorem no_cancellation_marking_counterexample :
    Reach [nA, nB] fnOk 1 cancelRunFinal ∧ cancelRunFinal.cancelled = true ∧
    cancelRunFinal.collectorDone = true ∧
    cancelRunFinal.successCount + cancelRunFinal.errorCount <
      ([nA, nB] : List Notification).length ∧
    Reach [] fnOk 1 emptyRunFinal ∧ emptyRunFinal.cancelled = false ∧
    emptyRunFinal.collectorDone = true ∧
    resultOf cancelRunFinal = resultOf emptyRunFinal :=
  ⟨reach_cancelRun, rfl, rfl, by decide, reach_emptyRun, rfl, rfl, rfl⟩

/-- C2 as amended: ProcessResult consists of the two counters only, so a
result is fully determined by successCount and errorCount and nothing in the
returned value can mark it as the result of a cancelled run. -/
theorem processResult_determined_by_counts (r r' : ProcessResult)
    (h1 : r.SuccessCount = r'.SuccessCount)
    (h2 : r.ErrorCount = r'.ErrorCount) : r = r' := by
  cases r
  cases r'
  simp_all

/-- Witness for processResult_determined_by_counts on concrete values. -/
theorem processResult_determined_by_counts_witness :
    ({ SuccessCount := 3, ErrorCount := 4 } : ProcessResult) =
      { SuccessCount := 3, ErrorCount := 4 } :=
  processResult_determined_by_counts
    { SuccessCount := 3, ErrorCount := 4 }
    { SuccessCount := 3, ErrorCount := 4 } rfl rfl

/-- Counterexample to C4: a workerCount below 1 is not rejected.  The REST
layer maps workers equal to 0 to the default of 2 rather than raising an
error, and the core started with zero workers raises nothing: it admits an
item and returns a zero tally through the normal path. -/
theorem workerCount_zero_not_rejected :
    BatchHandlerParams
        { Messages := [{ ChatID := "", Text := "hi" }], IntervalMs := 0,
          Workers := 0 } = some (2000000000, 2) ∧
    Reach [nA] fnOk 0 zeroWorkersFinal ∧
    zeroWorkersFinal.collectorDone = true ∧ zeroWorkersFinal.sent = 1 ∧
    resultOf zeroWorkersFinal = { SuccessCount := 0, ErrorCount := 0 } :=
  ⟨by decide, reach_zeroWorkers, rfl, rfl, rfl⟩

/-- C4 as amended: only the REST layer validates the worker count, and only
negative values fail binding (yielding 400 before the pipeline starts); a
zero worker count is treated as omitted and silently defaults to 2. -/
theorem batchHandler_workers_validation (r : BatchRequest) :
    (r.Workers < 0 → BatchHandlerParams r = none) ∧
    (r.Workers = 0 →
      ∀ iv w : Int, BatchHandlerParams r = some (iv, w) → w = 2) := by
  constructor
  · intro hw
    have h1 : (r.Workers == 0) = false := by
      simp only [beq_eq_false_iff_ne]
      omega
    have h2 : decide (1 ≤ r.Workers) = false := by
      simp only [decide_eq_false_iff_not]
      omega
    simp [BatchHandlerParams, bindBatchRequest, h1, h2]
  · intro hw iv w hsome
    by_cases hb : bindBatchRequest r = true
    · simp [BatchHandlerParams, hb, hw] at hsome
      exact hsome.2.symm
    · simp [BatchHandlerParams, hb] at hsome

/-- Witness for batchHandler_workers_validation: a negative worker count is
rejected, a zero worker count comes out as two workers. -/
theorem batchHandler_workers_validation_witness :
    BatchHandlerParams
      { Messages := [{ ChatID := "", Text := "x" }], IntervalMs := 5,
        Workers := -3 } = none ∧ (2 : Int) = 2 :=
  ⟨(batchHandler_workers_validation _).1 (by decide),
   (batchHandler_workers_validation
      { Messages := [{ ChatID := "", Text := "x" }], IntervalMs := 0,
        Workers := 0 }).2 rfl 2000000000 2 (by decide)⟩

/-- Witness for completed_run_counts_all: the completed four-item two-worker
run counts all four items. -/
theorem completed_run_counts_all_witness :
    run4Final.successCount + run4Final.errorCount = 4 ∧ run4Final.sent = 4 :=
  completed_run_counts_all items4 fnFail24 2 run4Final (by decide) reach_run4
    rfl rfl

/-- Witness for processFn_errors_captured: four items, two workers, failures
on the second and fourth item give two successes and two errors. -/
theorem processFn_errors_captured_witness :
    run4Final.errorCount = 2 ∧ run4Final.successCount = 2 := by
  have h := processFn_errors_captured items4 fnFail24 2 run4Final (by decide)
    reach_run4 rfl rfl
  have he : failCount fnFail24 items4 = 2 := by decide
  have hl : items4.length = 4 := rfl
  rw [he, hl] at h
  exact ⟨h.1, by omega⟩

/-- Witness for results_closed_only_after_workers_exit at the final state of
the completed empty run. -/
theorem results_closed_only_after_workers_exit_witness :
    emptyRunFinal.wg = 0 ∧ emptyRunFinal.idleW = 0 ∧
    emptyRunFinal.procW = [] ∧ emptyRunFinal.emitW = [] :=
  results_closed_only_after_workers_exit [] fnOk 1 emptyRunFinal
    reach_emptyRun rfl

/-- Witness for cancelled_tally_bounded on the run cancelled at zero
admissions. -/
theorem cancelled_tally_bounded_witness :
    cancelRunFinal.successCount + cancelRunFinal.errorCount ≤ 0 :=
  cancelled_tally_bounded [nA, nB] fnOk 1 0 cancelRunFinal reach_cancelRun
    rfl rfl

/-- Witness for jobSource_closes_once on the closing step of the empty-batch
source. -/
theorem jobSource_closes_once_witness :
    (initState 1).srcPC ≠ SrcPC.srcDone ∧
    ({ initState 1 with srcPC := SrcPC.srcDone, jobsClosed := true }
      : PipeState).srcPC = SrcPC.srcDone :=
  (jobSource_closes_once [] fnOk 1 (initState 1) _ Relation.ReflTransGen.refl
    (Step.srcCloseDone (initState 1) rfl (by decide))).2.1 rfl rfl

/-- Witness for tally_order_independent on a concrete permutation. -/
theorem tally_order_independent_witness :
    processResultsTally
        [{ Text := "a", Error := none }, { Text := "b", Error := some "x" },
         { Text := "c", Error := none }] =
      processResultsTally
        [{ Text := "b", Error := some "x" }, { Text := "c", Error := none },
         { Text := "a", Error := none }] :=
  tally_order_independent _ _ (by decide)
